import Mathlib

/-!
Shallow embedding of the cascading configuration engine of `appmgr`
(`src/appmgr/src/config/mod.rs`), together with theorems settling the
frozen claims about it.

The file first embeds the data model (`Config` values, error codes,
`ConfigurationRes`, the `NoMatchWithPath` / `MatchError` taxonomy) and the
operations (`configure`, `configure_rec`, `handle_broken_dependent`), then
proves the claims.  External collaborators that live in modules not present
under `src/` (the schema engine `spec.rs`, the rule engine `rules.rs`, the
app registry `apps.rs`, container control `control.rs`, the dependency
predicate in `dependencies.rs`, and the persistence layer in `util.rs`) are
modelled from the spec as explicit function-valued fields of an environment
record `Env`; each such definition carries a doc comment saying so.
Recursion through the (possibly cyclic) dependency graph is made total with
an explicit fuel parameter; fuel exhaustion yields a distinguished error
with code 0, which no real error path uses (`error.rs` codes start at 1).
-/

namespace Appmgr

/-- Modelled from the spec (value.rs is not in src/): a configuration Value is
an untyped tree of string / number / boolean / null / ordered list / ordered
key-value map; equality is structural.  Numbers are modelled as integers
(floating point is out of scope for the claims below). -/
inductive Config where
  | str (s : String)
  | num (n : Int)
  | bool (b : Bool)
  | null
  | list (xs : List Config)
  | obj (kvs : List (String × Config))

mutual

/-- Structural equality on configuration values (Rust's derived PartialEq). -/
def Config.beq : Config → Config → Bool
  | .str a, .str b => a == b
  | .num a, .num b => a == b
  | .bool a, .bool b => a == b
  | .null, .null => true
  | .list xs, .list ys => Config.beqList xs ys
  | .obj xs, .obj ys => Config.beqObj xs ys
  | _, _ => false

/-- Structural equality on lists of configuration values. -/
def Config.beqList : List Config → List Config → Bool
  | [], [] => true
  | x :: xs, y :: ys => Config.beq x y && Config.beqList xs ys
  | _, _ => false

/-- Structural equality on key-value lists of configuration values. -/
def Config.beqObj : List (String × Config) → List (String × Config) → Bool
  | [], [] => true
  | (k, v) :: xs, (l, w) :: ys => k == l && Config.beq v w && Config.beqObj xs ys
  | _, _ => false

end

mutual

theorem Config.beq_iff : ∀ (a b : Config), (Config.beq a b = true) ↔ a = b
  | .str _, b => by cases b <;> simp [Config.beq]
  | .num _, b => by cases b <;> simp [Config.beq]
  | .bool _, b => by cases b <;> simp [Config.beq]
  | .null, b => by cases b <;> simp [Config.beq]
  | .list xs, b => by
      cases b with
      | list ys => simpa [Config.beq] using Config.beqList_iff xs ys
      | str _ => simp [Config.beq]
      | num _ => simp [Config.beq]
      | bool _ => simp [Config.beq]
      | null => simp [Config.beq]
      | obj _ => simp [Config.beq]
  | .obj kvs, b => by
      cases b with
      | obj kvs2 => simpa [Config.beq] using Config.beqObj_iff kvs kvs2
      | str _ => simp [Config.beq]
      | num _ => simp [Config.beq]
      | bool _ => simp [Config.beq]
      | null => simp [Config.beq]
      | list _ => simp [Config.beq]

theorem Config.beqList_iff : ∀ (xs ys : List Config), (Config.beqList xs ys = true) ↔ xs = ys
  | [], [] => by simp [Config.beqList]
  | [], _ :: _ => by simp [Config.beqList]
  | _ :: _, [] => by simp [Config.beqList]
  | x :: xs, y :: ys => by
      simp only [Config.beqList, Bool.and_eq_true, List.cons.injEq]
      rw [Config.beq_iff x y, Config.beqList_iff xs ys]

theorem Config.beqObj_iff :
    ∀ (xs ys : List (String × Config)), (Config.beqObj xs ys = true) ↔ xs = ys
  | [], [] => by simp [Config.beqObj]
  | [], _ :: _ => by simp [Config.beqObj]
  | _ :: _, [] => by simp [Config.beqObj]
  | (k, v) :: xs, (l, w) :: ys => by
      simp only [Config.beqObj, Bool.and_eq_true, List.cons.injEq, Prod.mk.injEq,
        beq_iff_eq]
      rw [Config.beq_iff v w, Config.beqObj_iff xs ys, and_assoc]

end

instance : DecidableEq Config := fun a b => decidable_of_iff _ (Config.beq_iff a b)

/-! Error codes from `src/appmgr/src/error.rs` (lines 6-17). -/

def GENERAL_ERROR : Int := 1

def FILESYSTEM_ERROR : Int := 2

def DOCKER_ERROR : Int := 3

def CFG_SPEC_VIOLATION : Int := 4

def CFG_RULES_VIOLATION : Int := 5

def NOT_FOUND : Int := 6

def REGISTRY_ERROR : Int := 10

/-- The error type of `src/appmgr/src/error.rs` (lines 30-36): a message plus a
numeric code.  The anyhow message chain is abstracted to its rendered string,
which is what `format!("\x7b\x7d", e)` and the `Display` impl produce. -/
structure Error where
  code : Int
  message : String
deriving DecidableEq, Repr

/-- Fuel-exhaustion marker for the shallow embedding's explicit recursion
fuel.  Code 0 is used by no real error path (`with_code` even asserts the
code is nonzero in debug builds), so this cannot be confused with an error
produced by the embedded code. -/
def fuelExhausted : Error := { code := 0, message := "recursion fuel exhausted" }

/-- Modelled from the spec (dependencies.rs is not in src/): the dependency
error reported by the Dependency Predicate and by containment.  The variants
`notRunning`, `pointerUpdateError` and `other` are the ones constructed in
`config/mod.rs`; `notSatisfied` stands for the predicate's own failures. -/
inductive DependencyError where
  | notRunning
  | pointerUpdateError (msg : String)
  | other (msg : String)
  | notSatisfied (msg : String)
deriving DecidableEq, Repr

/-- Modelled from the spec (dependencies.rs is not in src/): a dependency
error tagged with the name of the dependency that caused it, as recorded in
`ConfigurationRes.stopped`. -/
structure TaggedDependencyError where
  dependency : String
  error : DependencyError
deriving DecidableEq, Repr

/-- Modelled from the spec (apps.rs is not in src/): the container runtime
status returned by the app registry.  `config/mod.rs` only ever compares it
against `Stopped`. -/
inductive DockerStatus where
  | running
  | stopped
  | paused
deriving DecidableEq, Repr

/-- Insertion-ordered map insert with the semantics of
`hashlink::LinkedHashMap::insert`: replacing the value of an existing key
keeps its position, a new key is appended at the back. -/
def mapInsert {α : Type} (m : List (String × α)) (k : String) (v : α) :
    List (String × α) :=
  if m.any (fun p => p.fst == k) then
    m.map (fun p => if p.fst == k then (k, v) else p)
  else m ++ [(k, v)]

/-- Lookup in an insertion-ordered map. -/
def mapLookup {α : Type} : List (String × α) → String → Option α
  | [], _ => none
  | (k', v) :: rest, k => if k' == k then some v else mapLookup rest k

/-- Insertion-ordered set insert with the semantics of
`hashlink::LinkedHashSet::insert`: inserting a present element keeps its
position, a new element is appended at the back. -/
def setInsert (s : List String) (k : String) : List String :=
  if s.contains k then s else s ++ [k]

/-- The result aggregate of a cascade (`config/mod.rs` lines 98-104):
`changed` maps app names to their new configurations in visitation order,
`needs_restart` collects apps whose running instance must be restarted, and
`stopped` records dependents forcibly stopped during the cascade. -/
structure ConfigurationRes where
  changed : List (String × Config)
  needs_restart : List String
  stopped : List (String × TaggedDependencyError)
deriving DecidableEq

/-- The empty result aggregate (`ConfigurationRes::default()`). -/
def ConfigurationRes.empty : ConfigurationRes :=
  { changed := [], needs_restart := [], stopped := [] }

/-- The externally owned per-app record: the registry flags
(`configured` / `recoverable` / `needs-restart`), the container status, the
durably persisted configuration file, and its replica in the app's runtime
mount path. -/
structure AppState where
  configured : Bool
  recoverable : Bool
  needsRestart : Bool
  status : DockerStatus
  savedConfig : Option Config
  volumeConfig : Option Config
deriving DecidableEq

/-- The mutable world a `configure` call runs in: the per-call result
accumulator, the per-app external records, and the entropy stream from which
each `configure_rec` frame draws its RNG seed
(`rand::rngs::StdRng::from_entropy()` at `config/mod.rs` line 155). -/
structure St where
  res : ConfigurationRes
  apps : String → AppState
  entropy : List Nat

/-- Modelled from the spec (spec.rs is not in src/): the schema engine as its
interface used by `configure_rec`.  `matches` validates a value, `gen`
produces a default value from a seed and an optional timeout, and `update`
re-resolves pointer nodes; the live data pointers resolve against is an
external collaborator and is held fixed inside `update` itself. -/
structure ConfigSpec where
  matchesFn : Config → Except String Unit
  genFn : Nat → Option Nat → Except String Config
  updateFn : Config → Except String Config

/-- Modelled from the spec (rules.rs is not in src/): a single configuration
rule, checked against the candidate value and a lookup table of named
values; a violation is reported as a rendered message. -/
structure ConfigRuleEntry where
  checkFn : Config → List (String × Config) → Except String Unit

/-- The external collaborators consumed by `configure` (spec section 6),
modelled as an explicit environment: the app registry, the schema and rule
sources, the dependency graph and predicate, and the fallible persistence
steps.  A `some e` in one of the `...Err` fields means that call fails with
error `e`; `none` means it succeeds. -/
structure Env where
  installed : String → Bool
  spec : String → ConfigSpec
  rules : String → List ConfigRuleEntry
  dependents : String → List String
  hasDep : String → String → Bool
  satisfied : String → Option Config → String → Config →
    Except Error (Except DependencyError Unit)
  writeConfigErr : String → Config → Option Error
  copyVolumeErr : String → Option Error
  setConfiguredErr : String → Bool → Option Error
  setRecoverableErr : String → Bool → Option Error
  setNeedsRestartErr : String → Bool → Option Error

/-- Update one app's external record in place. -/
def updApp (st : St) (name : String) (f : AppState → AppState) : St :=
  { st with apps := fun n => if n = name then f (st.apps n) else st.apps n }

@[simp]
theorem updApp_apps_self (st : St) (name : String) (f : AppState → AppState) :
    (updApp st name f).apps name = f (st.apps name) := by
  simp [updApp]

@[simp]
theorem updApp_apps_other (st : St) (name n : String) (f : AppState → AppState)
    (h : n ≠ name) : (updApp st name f).apps n = st.apps n := by
  simp [updApp, h]

/-- Modelled from the spec (control.rs is not in src/): stop one app's
container.  With `dry_run` the stop command is not actually issued
(spec section 5). -/
def stopApp (name : String) (dryRun : Bool) (st : St) : St :=
  if dryRun then st
  else updApp st name (fun a => { a with status := DockerStatus.stopped })

/-- Modelled from the spec (control.rs is not in src/):
`control::stop_dependents` recursively stops everything that in turn depends
on an app, recording each app it stops into `res.stopped` with the given
reason, tagged with the name of the app it depends on.  Apps whose container
is already stopped are left alone.  `work` is the list of dependents still to
process at the current node and `parent` the app they depend on; recursion is
bounded by explicit fuel. -/
def stopDependentsGo (env : Env) :
    Nat → List String → String → Bool → DependencyError → St → Except Error St
  | _, [], _, _, _, st => .ok st
  | 0, _ :: _, _, _, _, _ => .error fuelExhausted
  | fuel + 1, d :: ds, parent, dryRun, reason, st =>
    match stopDependentsGo env fuel (env.dependents d) d dryRun reason st with
    | .error e => .error e
    | .ok st =>
      let st :=
        if (st.apps d).status ≠ DockerStatus.stopped then
          let st := stopApp d dryRun st
          { st with
            res := { st.res with
              stopped := mapInsert st.res.stopped d ⟨parent, reason⟩ } }
        else st
      stopDependentsGo env fuel ds parent dryRun reason st

/-- The containment routine for a broken dependent
(`config/mod.rs` lines 113-141): first stop everything that depends on the
broken dependent with reason `NotRunning`, then, if the dependent's own
container is not already stopped, stop it and record it in `res.stopped`
tagged with the dependency `name` and the given error. -/
def handleBrokenDependent (env : Env) (fuel : Nat) (name dependent : String)
    (dryRun : Bool) (error : DependencyError) (st : St) : Except Error St :=
  match stopDependentsGo env fuel (env.dependents dependent) dependent dryRun
      DependencyError.notRunning st with
  | .error e => .error e
  | .ok st =>
    if (st.apps dependent).status ≠ DockerStatus.stopped then
      let st := stopApp dependent dryRun st
      .ok { st with
        res := { st.res with
          stopped := mapInsert st.res.stopped dependent ⟨name, error⟩ } }
    else .ok st

/-- Candidate selection (`config/mod.rs` lines 175-184): the explicitly
supplied value if given, else the previously persisted value if present, else
a value generated from the Spec; a generation failure is coded
`CFG_SPEC_VIOLATION`. -/
def selectCandidate (config0 : Option Config) (oldConfig : Option Config)
    (spec : ConfigSpec) (seed : Nat) (timeout : Option Nat) :
    Except Error Config :=
  match config0 with
  | some cfg => .ok cfg
  | none =>
    match oldConfig with
    | some old => .ok old
    | none =>
      match spec.genFn seed timeout with
      | .ok c => .ok c
      | .error m => .error { code := CFG_SPEC_VIOLATION, message := m }

/-- Rule checking (`config/mod.rs` lines 192-195): every rule is checked in
declaration order against the candidate and the lookup table; the first
violation is terminal and coded `CFG_RULES_VIOLATION`. -/
def checkRules (rules : List ConfigRuleEntry) (config : Config)
    (cfgs : List (String × Config)) : Except Error Unit :=
  match rules with
  | [] => .ok ()
  | r :: rest =>
    match r.checkFn config cfgs with
    | .error m => .error { code := CFG_RULES_VIOLATION, message := m }
    | .ok _ => checkRules rest config cfgs

/-- The persistence block of `configure_rec` (`config/mod.rs` lines 255-273):
atomically write-then-commit the configuration file, replicate it into the
app's runtime mount path (a filesystem error there is coded
`FILESYSTEM_ERROR` by the caller, which is reflected in the environment's
error value), mark the app configured and clear its recoverable flag.  Each
step either applies its effect or fails, and an intermediate failure keeps
the effects already applied, as the `?` operator does. -/
def persistStep (env : Env) (name : String) (config : Config) (st : St) :
    Option Error × St :=
  match env.writeConfigErr name config with
  | some e => (some e, st)
  | none =>
    let st := updApp st name (fun a => { a with savedConfig := some config })
    match env.copyVolumeErr name with
    | some e => (some e, st)
    | none =>
      let st := updApp st name (fun a => { a with volumeConfig := some config })
      match env.setConfiguredErr name true with
      | some e => (some e, st)
      | none =>
        let st := updApp st name (fun a => { a with configured := true })
        match env.setRecoverableErr name false with
        | some e => (some e, st)
        | none => (none, updApp st name (fun a => { a with recoverable := false }))

/-- The idempotence short-circuit guard (`config/mod.rs` lines 196-202): a
previous value exists, equals the candidate, and the app is already marked
configured and not marked recoverable. -/
def shortCircuitGuard (oldConfig : Option Config) (config : Config)
    (info : AppState) : Bool :=
  match oldConfig with
  | some old => decide (old = config) && info.configured && !info.recoverable
  | none => false

mutual

/-- The recursive configurator `configure_rec` (`config/mod.rs` lines
142-286), embedded as a state-passing function.  The state is threaded
through both success and failure, mirroring the Rust `&mut` accumulator and
the external side effects that survive an early `?` return.  Per frame, in
source order: installation check (`NOT_FOUND`), a fresh RNG seed drawn from
the entropy stream, loading the previous value, candidate selection,
`Spec::matches` and `Spec::update` (both coded `CFG_SPEC_VIOLATION` on
failure), rule checks (`CFG_RULES_VIOLATION`), the idempotence
short-circuit, recording into `res.changed`, the cascade into dependents,
persistence (skipped on `dry_run`), and restart bookkeeping.  Recursion is
bounded by explicit fuel. -/
def configureRec (env : Env) (fuel : Nat) (name : String)
    (config0 : Option Config) (timeout : Option Nat) (dryRun : Bool)
    (st : St) : Except Error Config × St :=
  match fuel with
  | 0 => (.error fuelExhausted, st)
  | fuel + 1 =>
    let info := st.apps name
    if env.installed name = false then
      (.error { code := NOT_FOUND, message := name ++ " is not installed" }, st)
    else
      let seed := st.entropy.headD 0
      let st := { st with entropy := st.entropy.tail }
      let spec := env.spec name
      let rules := env.rules name
      let oldConfig := info.savedConfig
      match selectCandidate config0 oldConfig spec seed timeout with
      | .error e => (.error e, st)
      | .ok config1 =>
        match spec.matchesFn config1 with
        | .error m => (.error { code := CFG_SPEC_VIOLATION, message := m }, st)
        | .ok _ =>
          match spec.updateFn config1 with
          | .error m => (.error { code := CFG_SPEC_VIOLATION, message := m }, st)
          | .ok config =>
            match checkRules rules config [(name, config)] with
            | .error e => (.error e, st)
            | .ok _ =>
              if shortCircuitGuard oldConfig config info then (.ok config, st)
              else
                let st := { st with
                  res := { st.res with
                    changed := mapInsert st.res.changed name config } }
                match configureDeps env fuel name config timeout dryRun
                    (env.dependents name) st with
                | (.error e, st) => (.error e, st)
                | (.ok _, st) =>
                  match
                    (if dryRun then (none, st) else persistStep env name config st)
                  with
                  | (some e, st) => (.error e, st)
                  | (none, st) =>
                    if (st.apps name).status ≠ DockerStatus.stopped then
                      match (if dryRun then none
                             else env.setNeedsRestartErr name true) with
                      | some e => (.error e, st)
                      | none =>
                        let st :=
                          if dryRun then st
                          else updApp st name
                            (fun a => { a with needsRestart := true })
                        let st := { st with
                          res := { st.res with
                            needs_restart :=
                              setInsert st.res.needs_restart name } }
                        (.ok config, st)
                    else (.ok config, st)

/-- The dependent loop of `configure_rec` (`config/mod.rs` lines 204-253):
for each app declaring a dependency on `name`, reconfigure it recursively
with no explicit value.  On success, if its manifest has a dependency entry
for `name`, ask the dependency predicate; an unsatisfied dependency is
contained via `handle_broken_dependent`.  On failure with code
`CFG_RULES_VIOLATION` or `CFG_SPEC_VIOLATION`, clear the dependent's
configured flag (unless `dry_run`) and contain with a pointer-update-error
reason carrying the rendered failure; on any other failure, contain with an
"other" reason.  Errors raised by the containment machinery itself (or by
the registry flag update) abort the loop. -/
def configureDeps (env : Env) (fuel : Nat) (name : String) (config : Config)
    (timeout : Option Nat) (dryRun : Bool) (deps : List String) (st : St) :
    Except Error Unit × St :=
  match deps with
  | [] => (.ok (), st)
  | dependent :: rest =>
    match fuel with
    | 0 => (.error fuelExhausted, st)
    | fuel + 1 =>
      match configureRec env fuel dependent none timeout dryRun st with
      | (.ok dependentConfig, st) =>
        if env.hasDep dependent name then
          match env.satisfied name (some config) dependent dependentConfig with
          | .error e => (.error e, st)
          | .ok (.ok _) =>
            configureDeps env fuel name config timeout dryRun rest st
          | .ok (.error e) =>
            match handleBrokenDependent env fuel name dependent dryRun e st with
            | .error e2 => (.error e2, st)
            | .ok st => configureDeps env fuel name config timeout dryRun rest st
        else configureDeps env fuel name config timeout dryRun rest st
      | (.error e, st) =>
        if e.code = CFG_RULES_VIOLATION ∨ e.code = CFG_SPEC_VIOLATION then
          match (if dryRun then none else env.setConfiguredErr dependent false) with
          | some e2 => (.error e2, st)
          | none =>
            let st :=
              if dryRun then st
              else updApp st dependent (fun a => { a with configured := false })
            match handleBrokenDependent env fuel name dependent dryRun
                (DependencyError.pointerUpdateError e.message) st with
            | .error e2 => (.error e2, st)
            | .ok st => configureDeps env fuel name config timeout dryRun rest st
        else
          match handleBrokenDependent env fuel name dependent dryRun
              (DependencyError.other e.message) st with
          | .error e2 => (.error e2, st)
          | .ok st => configureDeps env fuel name config timeout dryRun rest st

end

/-- The top-level entry point `configure` (`config/mod.rs` lines 107-112 and
287-290): create a fresh empty result, run `configure_rec` once at the root,
and return the aggregate; a root-frame error is surfaced to the caller. -/
def configure (env : Env) (fuel : Nat) (name : String)
    (config : Option Config) (timeout : Option Nat) (dryRun : Bool)
    (st : St) : Except Error ConfigurationRes × St :=
  let st := { st with res := ConfigurationRes.empty }
  match configureRec env fuel name config timeout dryRun st with
  | (.ok _, st) => (.ok st.res, st)
  | (.error e, st) => (.error e, st)

/-- Modelled from the spec (util.rs is not in src/): the rendering of a
numeric range, used only inside match-error messages; an absent bound is
shown as an asterisk. -/
structure NumRange where
  lo : Option Int
  hi : Option Int
deriving DecidableEq, Repr

/-- Render a numeric range. -/
def NumRange.display (r : NumRange) : String :=
  (match r.lo with | some n => toString n | none => "*") ++ ".." ++
    (match r.hi with | some n => toString n | none => "*")

/-- The match-error taxonomy (`config/mod.rs` lines 66-96).  Payload types
that live outside src/ are modelled as follows: a compiled regex by its
pattern string, a `ValueSpecPointer` by its rendered form, ordered string
sets by string lists, and floating-point numbers by integers. -/
inductive MatchError where
  | pattern (s : String) (re : String)
  | enum (s : String) (values : List String)
  | notNullable
  | lengthMismatch (expected : NumRange) (actual : Nat)
  | invalidType (expected : String) (actual : String)
  | outOfRange (expected : NumRange) (actual : Int)
  | nonIntegral (actual : Int)
  | union (variant : String) (variants : List String)
  | missingTag (tag : String)
  | propertyMatchesUnionTag (prop : String) (variant : String)
  | propertyNameMatchesMapTag (prop : String)
  | invalidPointer (ptr : String)
  | invalidKey (key : String)
  | listUniquenessViolation
deriving DecidableEq, Repr

/-- Render a string set the way a debug-formatted ordered set prints. -/
def displayStrSet (values : List String) : String :=
  "\x7b" ++ String.intercalate ", " (values.map String.quote) ++ "\x7d"

/-- The Display strings of `MatchError` (`config/mod.rs` lines 66-96). -/
def MatchError.display : MatchError → String
  | .pattern s re => "String " ++ String.quote s ++ " Does Not Match Pattern " ++ re
  | .enum s values =>
      "String " ++ String.quote s ++ " Is Not In Enum " ++ displayStrSet values
  | .notNullable => "Field Is Not Nullable"
  | .lengthMismatch expected actual =>
      "Length Mismatch: expected " ++ expected.display ++ ", actual: " ++
        toString actual
  | .invalidType expected actual =>
      "Invalid Type: expected " ++ expected ++ ", actual: " ++ actual
  | .outOfRange expected actual =>
      "Number Out Of Range: expected " ++ expected.display ++ ", actual: " ++
        toString actual
  | .nonIntegral actual => "Number Is Not Integral: " ++ toString actual
  | .union variant variants =>
      "Variant " ++ String.quote variant ++ " Is Not In Union " ++
        displayStrSet variants
  | .missingTag tag => "Variant Is Missing Tag " ++ String.quote tag
  | .propertyMatchesUnionTag prop variant =>
      "Property " ++ String.quote prop ++ " Of Variant " ++ String.quote variant ++
        " Conflicts With Union Tag"
  | .propertyNameMatchesMapTag prop =>
      "Name of Property " ++ String.quote prop ++ " Conflicts With Map Tag Name"
  | .invalidPointer ptr => "Pointer Is Invalid: " ++ ptr
  | .invalidKey key => "Object Key Is Invalid: " ++ key
  | .listUniquenessViolation => "Value In List Is Not Unique"

/-- A match error together with the path at which it occurred
(`config/mod.rs` lines 43-47). -/
structure NoMatchWithPath where
  path : List String
  error : MatchError
deriving DecidableEq, Repr

/-- Constructor `NoMatchWithPath::new` (`config/mod.rs` lines 49-54): a fresh
error with an empty path. -/
def NoMatchWithPath.new (error : MatchError) : NoMatchWithPath :=
  { path := [], error := error }

/-- Method `NoMatchWithPath::prepend` (`config/mod.rs` lines 55-58): pushes
the traversed segment onto the end of the stored path vector. -/
def NoMatchWithPath.prepend (self : NoMatchWithPath) (seg : String) :
    NoMatchWithPath :=
  { self with path := self.path ++ [seg] }

/-- The Display impl of `NoMatchWithPath` (`config/mod.rs` lines 60-64):
the path joined with dots in reverse order of insertion, a colon, then the
match error. -/
def NoMatchWithPath.display (self : NoMatchWithPath) : String :=
  String.intercalate "." self.path.reverse ++ ": " ++ self.error.display

/-! Concrete scenario environments, used by witnesses and counterexamples. -/

/-- A schema engine that accepts every value, generates the numeral of the
seed, and resolves no pointers. -/
def passSpec : ConfigSpec :=
  { matchesFn := fun _ => .ok ()
    genFn := fun seed _ => .ok (Config.num (Int.ofNat seed))
    updateFn := fun c => .ok c }

/-- A schema engine whose validation always fails with the given rendered
message. -/
def failSpec (msg : String) : ConfigSpec :=
  { passSpec with matchesFn := fun _ => .error msg }

/-- A three-app world: app "a" has dependent "d", and "d" has dependent "e".
The schema engine of "d" and the persistence failure table are parameters;
"a" and "e" accept everything.  `hasDepB` controls whether "d"'s manifest
declares its dependency on "a". -/
def envTwo (dSpec : ConfigSpec) (writeErr : String → Config → Option Error)
    (hasDepB : Bool) : Env :=
  { installed := fun n => n == "a" || n == "d" || n == "e"
    spec := fun n => if n == "d" then dSpec else passSpec
    rules := fun _ => []
    dependents := fun n => if n == "a" then ["d"] else if n == "d" then ["e"] else []
    hasDep := fun dep n => dep == "d" && n == "a" && hasDepB
    satisfied := fun _ _ _ _ => .ok (.ok ())
    writeConfigErr := writeErr
    copyVolumeErr := fun _ => none
    setConfiguredErr := fun _ _ => none
    setRecoverableErr := fun _ _ => none
    setNeedsRestartErr := fun _ _ => none }

/-- An app record with everything off and nothing persisted. -/
def blankApp : AppState :=
  { configured := false
    recoverable := false
    needsRestart := false
    status := DockerStatus.stopped
    savedConfig := none
    volumeConfig := none }

/-- A variant world in which "d" has no dependents of its own. -/
def envSolo (dSpec : ConfigSpec) : Env :=
  { envTwo dSpec (fun _ _ => none) true with
    dependents := fun n => if n == "a" then ["d"] else [] }

/-- Initial world for the scenarios: "a" is running with no persisted value,
"d" has the persisted value `str "w"` and the given flags, "e" is running
with no persisted value, and the entropy stream starts at 7. -/
def stTwo (dConfigured : Bool) (dStatus : DockerStatus) : St :=
  { res := ConfigurationRes.empty
    apps := fun n =>
      if n == "d" then
        { blankApp with
          configured := dConfigured
          status := dStatus
          savedConfig := some (Config.str "w") }
      else if n == "a" then { blankApp with status := DockerStatus.running }
      else if n == "e" then { blankApp with status := DockerStatus.running }
      else blankApp
    entropy := [7, 8, 9, 10] }

/-! Invariants of a successful `configure_rec` frame, extracted by following
the frame's control flow. -/

/-- A fully successful persistence block leaves the app with the candidate
persisted, the configured flag set and the recoverable flag cleared. -/
theorem persistStep_ok {env : Env} {name : String} {config : Config} {st st' : St}
    (h : persistStep env name config st = (none, st')) :
    (st'.apps name).savedConfig = some config ∧
    (st'.apps name).configured = true ∧
    (st'.apps name).recoverable = false := by
  unfold persistStep at h
  split at h
  · simp at h
  · split at h
    · simp at h
    · split at h
      · simp at h
      · split at h
        · simp at h
        · injection h with h1 h2
          subst h2
          simp [updApp]

/-- A successful non-dry-run frame leaves its own app with the returned
value persisted, marked configured and not recoverable — via the persistence
block on the ordinary path, and by the guard itself on the short-circuit
path. -/
theorem configureRec_ok_post {env : Env} {fuel : Nat} {name : String}
    {config0 : Option Config} {timeout : Option Nat} {st st' : St} {c : Config}
    (h : configureRec env fuel name config0 timeout false st = (.ok c, st')) :
    (st'.apps name).savedConfig = some c ∧
    (st'.apps name).configured = true ∧
    (st'.apps name).recoverable = false := by
  cases fuel with
  | zero => simp [configureRec, fuelExhausted] at h
  | succ fuel =>
    rw [configureRec] at h
    simp only [] at h
    split at h
    · simp at h
    · rename_i hinst
      cases hsel : selectCandidate config0 (st.apps name).savedConfig (env.spec name)
          (st.entropy.headD 0) timeout with
      | error e => rw [hsel] at h; simp at h
      | ok cand =>
        rw [hsel] at h
        simp only [] at h
        cases hmatch : (env.spec name).matchesFn cand with
        | error m => rw [hmatch] at h; simp at h
        | ok u =>
          rw [hmatch] at h
          simp only [] at h
          cases hupd : (env.spec name).updateFn cand with
          | error m => rw [hupd] at h; simp at h
          | ok cfg =>
            rw [hupd] at h
            simp only [] at h
            cases hrules : checkRules (env.rules name) cfg [(name, cfg)] with
            | error e => rw [hrules] at h; simp at h
            | ok u2 =>
              rw [hrules] at h
              simp only [] at h
              by_cases hsc : shortCircuitGuard (st.apps name).savedConfig cfg (st.apps name) = true
              · rw [if_pos hsc] at h
                injection h with h1 h2
                cases h1
                subst h2
                unfold shortCircuitGuard at hsc
                cases hold : (st.apps name).savedConfig with
                | none => rw [hold] at hsc; simp at hsc
                | some old =>
                  rw [hold] at hsc
                  simp only [Bool.and_eq_true, decide_eq_true_eq, Bool.not_eq_true'] at hsc
                  obtain ⟨⟨holdc, hconf⟩, hrec⟩ := hsc
                  subst holdc
                  exact ⟨rfl, hconf, hrec⟩
              · rw [if_neg hsc] at h
                simp only [Bool.false_eq_true, if_false] at h
                split at h
                · simp at h
                · rename_i a st2 hdeps
                  split at h
                  · simp at h
                  · rename_i st3 hpersist
                    split at h
                    · split at h
                      · simp at h
                      · injection h with h1 h2
                        cases h1
                        subst h2
                        have hp := persistStep_ok hpersist
                        simpa [updApp] using hp
                    · injection h with h1 h2
                      cases h1
                      subst h2
                      exact persistStep_ok hpersist

/-- A successful frame ran the whole validation pipeline on its candidate:
the candidate was selected by the precedence rule from the supplied value,
the persisted value and the generator seeded from the entropy head; it
passed `Spec::matches`; `Spec::update` turned it into the returned value;
and the rules accepted that value.  This holds on both return paths. -/
theorem configureRec_ok_pipeline {env : Env} {fuel : Nat} {name : String}
    {config0 : Option Config} {timeout : Option Nat} {dryRun : Bool}
    {st st' : St} {c : Config}
    (h : configureRec env fuel name config0 timeout dryRun st = (.ok c, st')) :
    env.installed name = true ∧
    ∃ cand,
      selectCandidate config0 (st.apps name).savedConfig (env.spec name)
        (st.entropy.headD 0) timeout = .ok cand ∧
      (env.spec name).matchesFn cand = .ok () ∧
      (env.spec name).updateFn cand = .ok c ∧
      checkRules (env.rules name) c [(name, c)] = .ok () := by
  cases fuel with
  | zero => simp [configureRec, fuelExhausted] at h
  | succ fuel =>
    rw [configureRec] at h
    simp only [] at h
    split at h
    · simp at h
    · rename_i hinst
      rw [Bool.not_eq_false] at hinst
      refine ⟨hinst, ?_⟩
      cases hsel : selectCandidate config0 (st.apps name).savedConfig (env.spec name)
          (st.entropy.headD 0) timeout with
      | error e => rw [hsel] at h; simp at h
      | ok cand =>
        rw [hsel] at h
        simp only [] at h
        cases hmatch : (env.spec name).matchesFn cand with
        | error m => rw [hmatch] at h; simp at h
        | ok u =>
          rw [hmatch] at h
          simp only [] at h
          cases hupd : (env.spec name).updateFn cand with
          | error m => rw [hupd] at h; simp at h
          | ok cfg =>
            rw [hupd] at h
            simp only [] at h
            cases hrules : checkRules (env.rules name) cfg [(name, cfg)] with
            | error e => rw [hrules] at h; simp at h
            | ok u2 =>
              rw [hrules] at h
              simp only [] at h
              have hc : cfg = c := by
                split at h
                · injection h with h1 h2; exact Except.ok.inj h1
                · split at h
                  · simp at h
                  · rename_i a st2 hdeps
                    split at h
                    · simp at h
                    · rename_i st3 hpersist
                      split at h
                      · split at h
                        · simp at h
                        · injection h with h1 h2; exact Except.ok.inj h1
                      · injection h with h1 h2; exact Except.ok.inj h1
              subst hc
              cases u
              exact ⟨cand, rfl, hmatch, hupd, hrules⟩

/-- C2: after a successful non-dry-run `configure(A, Some(v), ...)`, a second
`configure(A, Some(v), ...)` with no other state change returns an empty
`ConfigurationRes` and performs no recursion into A's dependents: the
returned aggregate is empty in all three components, the final state keeps
every app record unchanged, and exactly one entropy seed is consumed — each
visited frame draws one seed, so a single pop shows that only A's own frame
ran and the short-circuit fired (the persisted value equals the candidate, A
is marked configured and not recoverable). -/
theorem claim2_idempotent_reconfigure {env : Env} {fuel1 : Nat} {name : String}
    {v : Config} {timeout : Option Nat} {st st1 : St} {r1 : ConfigurationRes}
    (h1 : configure env fuel1 name (some v) timeout false st = (.ok r1, st1))
    (fuel2 : Nat) :
    configure env (fuel2 + 1) name (some v) timeout false st1 =
      (.ok ConfigurationRes.empty,
        { st1 with res := ConfigurationRes.empty, entropy := st1.entropy.tail }) := by
  rw [configure] at h1
  cases hrec : configureRec env fuel1 name (some v) timeout false
      { st with res := ConfigurationRes.empty } with
  | mk r st1x =>
    rw [hrec] at h1
    cases r with
    | error e => simp at h1
    | ok c1 =>
      simp only [] at h1
      injection h1 with h1a h1b
      subst h1b
      obtain ⟨hinst, cand, hsel, hmatch, hupd, hrules⟩ := configureRec_ok_pipeline hrec
      have hcand : cand = v := by
        simp [selectCandidate] at hsel
        exact hsel.symm
      subst hcand
      obtain ⟨hsaved, hconf, hrecov⟩ := configureRec_ok_post hrec
      rw [configure]
      rw [configureRec]
      simp only [hinst, Bool.true_eq_false, if_false]
      rw [show ({ st1x with res := ConfigurationRes.empty } : St).apps = st1x.apps from rfl]
      simp only [selectCandidate]
      rw [hmatch]
      simp only []
      rw [hupd]
      simp only []
      rw [hrules]
      simp only []
      rw [show shortCircuitGuard (st1x.apps name).savedConfig c1 (st1x.apps name) = true by
        rw [shortCircuitGuard.eq_def, hsaved]
        simp [hconf, hrecov]]
      simp

/-- First run of the scenario for the idempotence claim: configure "a" with
the value `num 1` in a world where nothing is configured yet. -/
def claim2Run1 : Except Error ConfigurationRes × St :=
  configure (envTwo passSpec (fun _ _ => none) true) 8 "a" (some (Config.num 1))
    none false (stTwo false DockerStatus.running)

/-- The aggregate returned by the first run. -/
def claim2Res1 : ConfigurationRes :=
  match claim2Run1.1 with
  | .ok r => r
  | .error _ => ConfigurationRes.empty

/-- Witness for C2 at a concrete input: after the concrete first run, the
second identical call returns the empty aggregate and pops exactly one
entropy seed. -/
theorem claim2_witness :
    configure (envTwo passSpec (fun _ _ => none) true) 3 "a" (some (Config.num 1))
      none false claim2Run1.2 =
      (.ok ConfigurationRes.empty,
        { claim2Run1.2 with
          res := ConfigurationRes.empty
          entropy := claim2Run1.2.entropy.tail }) :=
  @claim2_idempotent_reconfigure (envTwo passSpec (fun _ _ => none) true) 8 "a"
    (Config.num 1) none (stTwo false DockerStatus.running) claim2Run1.2 claim2Res1
    rfl 2

/-- C4: the default value configured for an app with no supplied value and no
prior persisted value is a deterministic function of the seed drawn from the
entropy stream: two successful runs whose entropy heads agree produce the
same value, whatever else differs between their initial worlds. -/
theorem claim4_default_generation_deterministic {env : Env} {fuel1 fuel2 : Nat}
    {name : String} {st1 st2 st1' st2' : St} {c1 c2 : Config}
    (h1 : configureRec env fuel1 name none none false st1 = (.ok c1, st1'))
    (h2 : configureRec env fuel2 name none none false st2 = (.ok c2, st2'))
    (hsaved1 : (st1.apps name).savedConfig = none)
    (hsaved2 : (st2.apps name).savedConfig = none)
    (hseed : st1.entropy.headD 0 = st2.entropy.headD 0) :
    c1 = c2 := by
  obtain ⟨-, cand1, hsel1, -, hupd1, -⟩ := configureRec_ok_pipeline h1
  obtain ⟨-, cand2, hsel2, -, hupd2, -⟩ := configureRec_ok_pipeline h2
  rw [hsaved1] at hsel1
  rw [hsaved2, ← hseed] at hsel2
  rw [selectCandidate] at hsel1 hsel2
  have hc : cand1 = cand2 := by
    cases hgen : (env.spec name).genFn (st1.entropy.headD 0) none with
    | ok g =>
      rw [hgen] at hsel1 hsel2
      simp at hsel1 hsel2
      rw [← hsel1, ← hsel2]
    | error m =>
      rw [hgen] at hsel1
      simp at hsel1
  rw [hc, hupd2] at hupd1
  exact (Except.ok.inj hupd1).symm

/-- First run of the scenario for the determinism claim. -/
def claim4Run1 : Except Error Config × St :=
  configureRec (envTwo passSpec (fun _ _ => none) true) 8 "a" none none false
    (stTwo false DockerStatus.running)

/-- Second run of the scenario for the determinism claim, from a world that
differs in "d"'s configured flag but has the same entropy stream. -/
def claim4Run2 : Except Error Config × St :=
  configureRec (envTwo passSpec (fun _ _ => none) true) 9 "a" none none false
    (stTwo true DockerStatus.running)

/-- Extract the configured value of a run, defaulting to null on error. -/
def runValue (r : Except Error Config × St) : Config :=
  match r.1 with
  | .ok c => c
  | .error _ => Config.null

/-- Witness for C4 at a concrete input: the two concrete runs (with different
fuel and different initial flags but equal entropy) configure the same
default value for "a". -/
theorem claim4_witness : runValue claim4Run1 = runValue claim4Run2 :=
  @claim4_default_generation_deterministic
    (envTwo passSpec (fun _ _ => none) true) 8 9 "a"
    (stTwo false DockerStatus.running) (stTwo true DockerStatus.running)
    claim4Run1.2 claim4Run2.2 (runValue claim4Run1) (runValue claim4Run2)
    rfl rfl rfl rfl rfl

/-- C5: candidate selection follows exactly the precedence of
`config/mod.rs` lines 175-184, as embedded in `selectCandidate` (the
function `configureRec` applies to pick its candidate): a supplied value
wins outright and consults neither the persisted value nor the generator;
otherwise a persisted value wins and the generator is still not consulted
(the outcome is invariant under changing the schema engine, the seed and the
timeout); only when both are absent is the generator consulted, and its
failure is coded `CFG_SPEC_VIOLATION`. -/
theorem claim5_candidate_selection_precedence :
    (∀ (v : Config) (old : Option Config) (s s' : ConfigSpec) (seed seed' : Nat)
      (t t' : Option Nat),
      selectCandidate (some v) old s seed t = .ok v ∧
      selectCandidate (some v) old s seed t = selectCandidate (some v) old s' seed' t') ∧
    (∀ (old : Config) (s s' : ConfigSpec) (seed seed' : Nat) (t t' : Option Nat),
      selectCandidate none (some old) s seed t = .ok old ∧
      selectCandidate none (some old) s seed t =
        selectCandidate none (some old) s' seed' t') ∧
    (∀ (s : ConfigSpec) (seed : Nat) (t : Option Nat),
      selectCandidate none none s seed t =
        match s.genFn seed t with
        | .ok c => .ok c
        | .error m => .error { code := CFG_SPEC_VIOLATION, message := m }) :=
  ⟨fun _ _ _ _ _ _ _ _ => ⟨rfl, rfl⟩, fun _ _ _ _ _ _ _ => ⟨rfl, rfl⟩,
    fun _ _ _ => rfl⟩

/-- Folding `prepend` over a list of segments appends them all to the path,
in order. -/
theorem foldl_prepend_path (segs : List String) (x : NoMatchWithPath) :
    (segs.foldl NoMatchWithPath.prepend x).path = x.path ++ segs := by
  induction segs generalizing x with
  | nil => simp
  | cons s rest ih => simp [NoMatchWithPath.prepend, ih]

/-- Folding `prepend` over a list of segments leaves the error unchanged. -/
theorem foldl_prepend_error (segs : List String) (x : NoMatchWithPath) :
    (segs.foldl NoMatchWithPath.prepend x).error = x.error := by
  induction segs generalizing x with
  | nil => rfl
  | cons s rest ih => simp [NoMatchWithPath.prepend, ih]

/-- C8: `prepend` appends each segment to the stored path, and `Display`
joins the path dot-separated in reverse order of insertion; so for any
sequence of segments prepended during bubbling (innermost first), the
rendered error shows them dot-joined with the outermost segment first. -/
theorem claim8_error_path_rendering :
    (∀ (x : NoMatchWithPath) (seg : String),
      (x.prepend seg).path = x.path ++ [seg]) ∧
    (∀ (e : MatchError) (segs : List String),
      (segs.foldl NoMatchWithPath.prepend (NoMatchWithPath.new e)).display =
        String.intercalate "." segs.reverse ++ ": " ++ e.display) := by
  refine ⟨fun x seg => rfl, fun e segs => ?_⟩
  rw [NoMatchWithPath.display, foldl_prepend_path, foldl_prepend_error]
  rfl

/-! Dry-run frame preservation: with `dry_run` no external app record is
touched anywhere in the cascade. -/

/-- Stopping dependents with `dry_run` leaves every app record unchanged
(only `res.stopped` is written). -/
theorem stopDependentsGo_apps_dry {env : Env} :
    ∀ (fuel : Nat) (work : List String) (parent : String)
      (reason : DependencyError) (st st' : St),
      stopDependentsGo env fuel work parent true reason st = .ok st' →
      ∀ n, st'.apps n = st.apps n := by
  intro fuel
  induction fuel with
  | zero =>
    intro work parent reason st st' h n
    cases work with
    | nil => rw [stopDependentsGo] at h; cases h; rfl
    | cons d ds => rw [stopDependentsGo] at h; simp at h
  | succ fuel ih =>
    intro work parent reason st st' h n
    cases work with
    | nil => rw [stopDependentsGo] at h; cases h; rfl
    | cons d ds =>
      rw [stopDependentsGo] at h
      cases hchild : stopDependentsGo env fuel (env.dependents d) d true reason st with
      | error e => rw [hchild] at h; simp at h
      | ok st2 =>
        rw [hchild] at h
        simp only [] at h
        split at h
        · exact (ih _ _ _ _ _ h n).trans (ih _ _ _ _ _ hchild n)
        · exact (ih _ _ _ _ _ h n).trans (ih _ _ _ _ _ hchild n)

/-- Containing a broken dependent with `dry_run` leaves every app record
unchanged. -/
theorem handleBrokenDependent_apps_dry {env : Env} {fuel : Nat}
    {name dependent : String} {err : DependencyError} {st st' : St}
    (h : handleBrokenDependent env fuel name dependent true err st = .ok st') :
    ∀ n, st'.apps n = st.apps n := by
  rw [handleBrokenDependent] at h
  cases hsd : stopDependentsGo env fuel (env.dependents dependent) dependent true
      DependencyError.notRunning st with
  | error e => rw [hsd] at h; simp at h
  | ok st2 =>
    rw [hsd] at h
    simp only [] at h
    split at h
    · cases h
      intro n
      exact stopDependentsGo_apps_dry _ _ _ _ _ _ hsd n
    · cases h
      intro n
      exact stopDependentsGo_apps_dry _ _ _ _ _ _ hsd n

/-- Joint dry-run preservation for the mutual pair: any dry-run
`configure_rec` frame and any dry-run dependent loop leave every app record
(flags, status, persisted file, replica) unchanged, whether they succeed or
fail. -/
theorem dry_apps_aux (env : Env) : ∀ (fuel : Nat),
    (∀ (name : String) (c0 : Option Config) (t : Option Nat) (st : St)
      (r : Except Error Config) (st' : St),
      configureRec env fuel name c0 t true st = (r, st') →
      ∀ n, st'.apps n = st.apps n) ∧
    (∀ (name : String) (cfg : Config) (t : Option Nat) (deps : List String)
      (st : St) (r : Except Error Unit) (st' : St),
      configureDeps env fuel name cfg t true deps st = (r, st') →
      ∀ n, st'.apps n = st.apps n) := by
  intro fuel
  induction fuel with
  | zero =>
    constructor
    · intro name c0 t st r st' h n
      rw [configureRec] at h
      cases h
      rfl
    · intro name cfg t deps st r st' h n
      cases deps with
      | nil => rw [configureDeps] at h; cases h; rfl
      | cons d ds => rw [configureDeps] at h; cases h; rfl
  | succ fuel ih =>
    obtain ⟨ihR, ihD⟩ := ih
    constructor
    · intro name c0 t st r st' h n
      rw [configureRec] at h
      simp only [] at h
      split at h
      · cases h; rfl
      · cases hsel : selectCandidate c0 (st.apps name).savedConfig (env.spec name)
            (st.entropy.headD 0) t with
        | error e => rw [hsel] at h; cases h; rfl
        | ok cand =>
          rw [hsel] at h
          simp only [] at h
          cases hmatch : (env.spec name).matchesFn cand with
          | error m => rw [hmatch] at h; cases h; rfl
          | ok u =>
            rw [hmatch] at h
            simp only [] at h
            cases hupd : (env.spec name).updateFn cand with
            | error m => rw [hupd] at h; cases h; rfl
            | ok cfg =>
              rw [hupd] at h
              simp only [] at h
              cases hrules : checkRules (env.rules name) cfg [(name, cfg)] with
              | error e => rw [hrules] at h; cases h; rfl
              | ok u2 =>
                rw [hrules] at h
                simp only [] at h
                split at h
                · cases h; rfl
                · simp only [eq_self_iff_true, if_true] at h
                  split at h
                  · rename_i e st2 hdeps
                    cases h
                    exact (ihD _ _ _ _ _ _ _ hdeps n).trans rfl
                  · rename_i a st2 hdeps
                    split at h
                    · cases h
                      exact (ihD _ _ _ _ _ _ _ hdeps n).trans rfl
                    · cases h
                      exact (ihD _ _ _ _ _ _ _ hdeps n).trans rfl
    · intro name cfg t deps st r st' h n
      cases deps with
      | nil => rw [configureDeps] at h; cases h; rfl
      | cons d ds =>
        rw [configureDeps] at h
        simp only [] at h
        cases hrec : configureRec env fuel d none t true st with
        | mk rd st2 =>
          rw [hrec] at h
          cases rd with
          | ok depCfg =>
            simp only [] at h
            split at h
            · cases hsat : env.satisfied name (some cfg) d depCfg with
              | error e =>
                rw [hsat] at h
                cases h
                exact (ihR _ _ _ _ _ _ hrec n)
              | ok inner =>
                rw [hsat] at h
                cases inner with
                | ok u =>
                  simp only [] at h
                  exact (ihD _ _ _ _ _ _ _ h n).trans (ihR _ _ _ _ _ _ hrec n)
                | error de =>
                  simp only [] at h
                  cases hb : handleBrokenDependent env fuel name d true de st2 with
                  | error e2 =>
                    rw [hb] at h
                    cases h
                    exact (ihR _ _ _ _ _ _ hrec n)
                  | ok st3 =>
                    rw [hb] at h
                    exact ((ihD _ _ _ _ _ _ _ h n).trans
                      (handleBrokenDependent_apps_dry hb n)).trans
                      (ihR _ _ _ _ _ _ hrec n)
            · exact (ihD _ _ _ _ _ _ _ h n).trans (ihR _ _ _ _ _ _ hrec n)
          | error e =>
            simp only [] at h
            split at h
            · simp only [eq_self_iff_true, if_true] at h
              cases hb : handleBrokenDependent env fuel name d true
                  (DependencyError.pointerUpdateError e.message) st2 with
              | error e2 =>
                rw [hb] at h
                cases h
                exact (ihR _ _ _ _ _ _ hrec n)
              | ok st3 =>
                rw [hb] at h
                exact ((ihD _ _ _ _ _ _ _ h n).trans
                  (handleBrokenDependent_apps_dry hb n)).trans
                  (ihR _ _ _ _ _ _ hrec n)
            · cases hb : handleBrokenDependent env fuel name d true
                  (DependencyError.other e.message) st2 with
              | error e2 =>
                rw [hb] at h
                cases h
                exact (ihR _ _ _ _ _ _ hrec n)
              | ok st3 =>
                rw [hb] at h
                exact ((ihD _ _ _ _ _ _ _ h n).trans
                  (handleBrokenDependent_apps_dry hb n)).trans
                  (ihR _ _ _ _ _ _ hrec n)

/-- C7: with `dry_run = true` no configuration file is written or
replicated and no configured / recoverable / needs-restart flag (nor the
container status) is mutated for any app — the whole per-app record is
untouched at every visited fuel, name and state — while traversal,
validation and containment still run and still populate the returned
aggregate: in the concrete broken-dependent scenario the dry run reports
"a" as changed, "a" as needing restart, and both "e" (stopped as a
transitive dependent) and "d" (the broken dependent) in `stopped`. -/
theorem claim7_dry_run_frame :
    (∀ (env : Env) (fuel : Nat) (name : String) (c0 : Option Config)
      (t : Option Nat) (st : St) (n : String),
      ((configureRec env fuel name c0 t true st).2).apps n = st.apps n) ∧
    (configure (envTwo (failSpec "dspecerr") (fun _ _ => none) true) 8 "a"
        (some (Config.num 1)) none true (stTwo true DockerStatus.running)).1 =
      .ok { changed := [("a", Config.num 1)]
            needs_restart := ["a"]
            stopped := [("e", ⟨"d", DependencyError.notRunning⟩),
                        ("d", ⟨"a", DependencyError.pointerUpdateError "dspecerr"⟩)] } := by
  constructor
  · intro env fuel name c0 t st n
    exact (dry_apps_aux env fuel).1 name c0 t st
      (configureRec env fuel name c0 t true st).1
      (configureRec env fuel name c0 t true st).2 rfl n
  · rfl

/-! Ordered-map facts and containment helpers. -/

/-- Replacing inside a map finds the replaced value. -/
theorem mapLookup_map_replace {α : Type} (k : String) (v : α) :
    ∀ (m : List (String × α)), m.any (fun p => p.fst == k) = true →
      mapLookup (m.map (fun p => if p.fst == k then (k, v) else p)) k = some v
  | [], h => by simp at h
  | (k2, w) :: rest, h => by
      simp only [List.map_cons]
      by_cases hk : k2 = k
      · subst hk
        rw [if_pos (show ((k2, w).fst == k2) = true by simp)]
        simp only [mapLookup]
        rw [if_pos (show (k2 == k2) = true by simp)]
      · rw [if_neg (show ¬((k2, w).fst == k) = true by simp [hk])]
        simp only [mapLookup]
        rw [if_neg (show ¬(k2 == k) = true by simp [hk])]
        exact mapLookup_map_replace k v rest (by simpa [hk] using h)

/-- Replacing one key inside a map does not change the lookup of another. -/
theorem mapLookup_map_replace_other {α : Type} (k k' : String) (v : α)
    (hkk : k ≠ k') :
    ∀ (m : List (String × α)),
      mapLookup (m.map (fun p => if p.fst == k then (k, v) else p)) k' =
        mapLookup m k'
  | [] => rfl
  | (k2, w) :: rest => by
      simp only [List.map_cons]
      by_cases hk : k2 = k
      · subst hk
        rw [if_pos (show ((k2, w).fst == k2) = true by simp)]
        simp only [mapLookup]
        rw [if_neg (show ¬(k2 == k') = true by simp [hkk]),
          if_neg (show ¬(k2 == k') = true by simp [hkk])]
        exact mapLookup_map_replace_other k2 k' v hkk rest
      · rw [if_neg (show ¬((k2, w).fst == k) = true by simp [hk])]
        simp only [mapLookup]
        by_cases hk2 : k2 = k'
        · rw [if_pos (show (k2 == k') = true by simp [hk2]),
            if_pos (show (k2 == k') = true by simp [hk2])]
        · rw [if_neg (show ¬(k2 == k') = true by simp [hk2]),
            if_neg (show ¬(k2 == k') = true by simp [hk2])]
          exact mapLookup_map_replace_other k k' v hkk rest

/-- Appending a fresh key finds the appended value. -/
theorem mapLookup_append_fresh {α : Type} (k : String) (v : α) :
    ∀ (m : List (String × α)), m.any (fun p => p.fst == k) = false →
      mapLookup (m ++ [(k, v)]) k = some v
  | [], _ => by
      simp only [List.nil_append, mapLookup]
      rw [if_pos (show (k == k) = true by simp)]
  | (k2, w) :: rest, h => by
      have hk : ¬ k2 = k := by
        intro hkk
        subst hkk
        simp at h
      simp only [List.cons_append, mapLookup]
      rw [if_neg (show ¬(k2 == k) = true by simp [hk])]
      exact mapLookup_append_fresh k v rest (by simpa [hk] using h)

/-- Appending one key does not change the lookup of another. -/
theorem mapLookup_append_other {α : Type} (k k' : String) (v : α) (hkk : k ≠ k') :
    ∀ (m : List (String × α)), mapLookup (m ++ [(k, v)]) k' = mapLookup m k'
  | [] => by
      simp only [List.nil_append, mapLookup]
      rw [if_neg (show ¬(k == k') = true by simp [hkk])]
  | (k2, w) :: rest => by
      simp only [List.cons_append, mapLookup]
      split
      · rfl
      · exact mapLookup_append_other k k' v hkk rest

/-- Inserting always makes the inserted value visible at its key. -/
theorem mapLookup_mapInsert {α : Type} (m : List (String × α)) (k : String) (v : α) :
    mapLookup (mapInsert m k v) k = some v := by
  rw [mapInsert]
  by_cases h : m.any (fun p => p.fst == k) = true
  · rw [if_pos h]
    exact mapLookup_map_replace k v m h
  · rw [if_neg h]
    exact mapLookup_append_fresh k v m (by rwa [Bool.not_eq_true] at h)

/-- Inserting one key does not change the lookup of another. -/
theorem mapLookup_mapInsert_other {α : Type} (m : List (String × α))
    (k k' : String) (v : α) (h : k ≠ k') :
    mapLookup (mapInsert m k v) k' = mapLookup m k' := by
  rw [mapInsert]
  split
  · exact mapLookup_map_replace_other k k' v h m
  · exact mapLookup_append_other k k' v h m

/-- Stopping an app never touches the result accumulator. -/
theorem stopApp_res (d : String) (dr : Bool) (st : St) :
    (stopApp d dr st).res = st.res := by
  cases dr <;> simp [stopApp, updApp]

/-- Stopping an app never touches the entropy stream. -/
theorem stopApp_entropy (d : String) (dr : Bool) (st : St) :
    (stopApp d dr st).entropy = st.entropy := by
  cases dr <;> simp [stopApp, updApp]

/-- Stopping an app preserves every field of every app record except
possibly that app's status. -/
theorem stopApp_apps_fields (d : String) (dr : Bool) (st : St) (n : String) :
    ((stopApp d dr st).apps n).configured = (st.apps n).configured ∧
    ((stopApp d dr st).apps n).recoverable = (st.apps n).recoverable ∧
    ((stopApp d dr st).apps n).needsRestart = (st.apps n).needsRestart ∧
    ((stopApp d dr st).apps n).savedConfig = (st.apps n).savedConfig ∧
    ((stopApp d dr st).apps n).volumeConfig = (st.apps n).volumeConfig := by
  cases dr with
  | false =>
    by_cases hn : n = d
    · subst hn; simp [stopApp, updApp]
    · simp [stopApp, updApp, hn]
  | true => simp [stopApp]

/-- Containment for a broken dependent with no dependents of its own and a
container that is not already stopped: stop it and record it. -/
theorem handleBrokenDependent_no_deps {env : Env} {fuel : Nat}
    {name d : String} {dr : Bool} {err : DependencyError} {st : St}
    (hdeps : env.dependents d = [])
    (hstatus : (st.apps d).status ≠ DockerStatus.stopped) :
    handleBrokenDependent env fuel name d dr err st =
      .ok { stopApp d dr st with
            res := { st.res with
              stopped := mapInsert st.res.stopped d ⟨name, err⟩ } } := by
  rw [handleBrokenDependent, hdeps]
  rw [show stopDependentsGo env fuel [] d dr DependencyError.notRunning st = .ok st
    from by cases fuel <;> rfl]
  simp only []
  rw [if_pos hstatus]
  rw [stopApp_res]

/-- Stopping one app leaves every other app's record unchanged. -/
theorem stopApp_apps_other (e n : String) (dr : Bool) (st : St) (hne : n ≠ e) :
    ((stopApp e dr st).apps n) = st.apps n := by
  cases dr <;> simp [stopApp, updApp, hne]

/-- C10: in the dependent loop, a dependent whose recursive reconfiguration
succeeds but whose manifest has no dependency entry for the app being
configured skips the dependency-satisfaction check entirely: the loop step
is exactly the continuation on the remaining dependents from the recursive
call's state, so nothing can be stopped or recorded for that dependent via
the satisfaction path in this frame. -/
theorem claim10_no_dependency_entry_skips_check {env : Env} {fuel : Nat}
    {name d : String} {cfg depCfg : Config} {t : Option Nat} {dr : Bool}
    {rest : List String} {st st' : St}
    (hrec : configureRec env fuel d none t dr st = (.ok depCfg, st'))
    (hnodep : env.hasDep d name = false) :
    configureDeps env (fuel + 1) name cfg t dr (d :: rest) st =
      configureDeps env fuel name cfg t dr rest st' := by
  rw [configureDeps]
  simp only []
  rw [hrec]
  simp only []
  rw [hnodep]
  simp only [Bool.false_eq_true, if_false]

/-- Run of the scenario for the skipped-satisfaction claim: reconfigure "d"
(whose schema accepts everything) on its own. -/
def claim10Run : Except Error Config × St :=
  configureRec (envTwo passSpec (fun _ _ => none) false) 4 "d" none none false
    (stTwo false DockerStatus.running)

/-- Witness for C10 at a concrete input: with "d"'s manifest declaring no
dependency on "a", the loop step over "d" is just the continuation. -/
theorem claim10_witness :
    configureDeps (envTwo passSpec (fun _ _ => none) false) 5 "a" (Config.num 1)
      none false ["d"] (stTwo false DockerStatus.running) =
      configureDeps (envTwo passSpec (fun _ _ => none) false) 4 "a" (Config.num 1)
        none false [] claim10Run.2 :=
  @claim10_no_dependency_entry_skips_check (envTwo passSpec (fun _ _ => none) false)
    4 "a" "d" (Config.num 1) (runValue claim10Run) none false []
    (stTwo false DockerStatus.running) claim10Run.2 rfl rfl

/-- C9: a broken dependent whose container is already stopped at containment
time is not inserted into `result.stopped` (its entry is whatever it was
before), while its own dependents are still stopped and recorded with a
"not running" reason tagged with the app they depend on. -/
theorem claim9_broken_dependent_already_stopped {env : Env} {fuel : Nat}
    {name d E : String} {dr : Bool} {err : DependencyError} {st : St}
    (hstatus : (st.apps d).status = DockerStatus.stopped)
    (hdeps : env.dependents d = [E])
    (hEdeps : env.dependents E = [])
    (hEstatus : (st.apps E).status ≠ DockerStatus.stopped)
    (hEd : d ≠ E) :
    ∃ st', handleBrokenDependent env (fuel + 1) name d dr err st = .ok st' ∧
      st'.res.stopped = mapInsert st.res.stopped E ⟨d, DependencyError.notRunning⟩ ∧
      mapLookup st'.res.stopped E = some ⟨d, DependencyError.notRunning⟩ ∧
      mapLookup st'.res.stopped d = mapLookup st.res.stopped d := by
  have hsE : stopDependentsGo env fuel (env.dependents E) E dr
      DependencyError.notRunning st = .ok st := by
    rw [hEdeps]
    cases fuel <;> rfl
  have hds : ((stopApp E dr st).apps d).status = DockerStatus.stopped := by
    rw [stopApp_apps_other E d dr st hEd]
    exact hstatus
  rw [handleBrokenDependent, hdeps, stopDependentsGo, hsE]
  simp only []
  rw [if_pos hEstatus]
  rw [show ∀ stX, stopDependentsGo env fuel [] d dr DependencyError.notRunning stX =
    .ok stX from fun stX => by cases fuel <;> rfl]
  simp only []
  rw [if_neg (show ¬(((stopApp E dr st).apps d).status ≠ DockerStatus.stopped)
    from fun hcon => hcon hds)]
  refine ⟨_, rfl, ?_, ?_, ?_⟩
  · rw [stopApp_res]
  · rw [stopApp_res]
    exact mapLookup_mapInsert _ E _
  · rw [stopApp_res]
    exact mapLookup_mapInsert_other _ E d _ (fun h => hEd h.symm)

/-- Witness for C9 at a concrete input: "d" is already stopped and its own
dependent "e" is running; containment records "e" with a not-running reason
but does not record "d". -/
theorem claim9_witness :
    ∃ st', handleBrokenDependent (envTwo passSpec (fun _ _ => none) true) 3 "a" "d"
        false (DependencyError.notSatisfied "nope") (stTwo true DockerStatus.stopped) =
        .ok st' ∧
      st'.res.stopped =
        mapInsert (stTwo true DockerStatus.stopped).res.stopped "e"
          ⟨"d", DependencyError.notRunning⟩ ∧
      mapLookup st'.res.stopped "e" = some ⟨"d", DependencyError.notRunning⟩ ∧
      mapLookup st'.res.stopped "d" =
        mapLookup (stTwo true DockerStatus.stopped).res.stopped "d" :=
  @claim9_broken_dependent_already_stopped (envTwo passSpec (fun _ _ => none) true)
    2 "a" "d" "e" false (DependencyError.notSatisfied "nope")
    (stTwo true DockerStatus.stopped) rfl rfl rfl
    (by intro h; simp [stTwo, blankApp] at h) (by intro h; simp at h)

/-- C6: dispatch on a failed dependent reconfiguration during the cascade.
If the failure is coded `CFG_RULES_VIOLATION` or `CFG_SPEC_VIOLATION`, then
(unless `dry_run`) the dependent's configured flag is cleared and containment
records it with a pointer-update-error reason carrying the failure's rendered
message (under `dry_run` the dependent's record is untouched); any other
failure code is contained with an "other" reason and the configured flag is
not cleared.  Stated for a dependent with no dependents of its own whose
container is running, so that the containment machinery's own effect is fully
determined. -/
theorem claim6_dependent_failure_dispatch {env : Env} {fuel : Nat}
    {name d : String} {cfg : Config} {t : Option Nat} {dr : Bool}
    {st st' : St} {e : Error}
    (hrec : configureRec env fuel d none t dr st = (.error e, st'))
    (hdeps : env.dependents d = [])
    (hstatus : (st'.apps d).status ≠ DockerStatus.stopped)
    (hsetc : env.setConfiguredErr d false = none) :
    ((e.code = CFG_RULES_VIOLATION ∨ e.code = CFG_SPEC_VIOLATION) →
      ∃ st2, configureDeps env (fuel + 1) name cfg t dr [d] st = (.ok (), st2) ∧
        mapLookup st2.res.stopped d =
          some ⟨name, DependencyError.pointerUpdateError e.message⟩ ∧
        (dr = false → (st2.apps d).configured = false) ∧
        (dr = true → st2.apps d = st'.apps d)) ∧
    (¬(e.code = CFG_RULES_VIOLATION ∨ e.code = CFG_SPEC_VIOLATION) →
      ∃ st2, configureDeps env (fuel + 1) name cfg t dr [d] st = (.ok (), st2) ∧
        mapLookup st2.res.stopped d = some ⟨name, DependencyError.other e.message⟩ ∧
        (st2.apps d).configured = (st'.apps d).configured) := by
  have hnil : ∀ (fl : Nat) (stX : St),
      configureDeps env fl name cfg t dr [] stX = (.ok (), stX) :=
    fun fl stX => by cases fl <;> rfl
  refine ⟨fun hcode => ?_, fun hcode => ?_⟩
  · obtain ⟨r2, st2, hcomp⟩ :
        ∃ r2 st2, configureDeps env (fuel + 1) name cfg t dr [d] st = (r2, st2) :=
      ⟨_, _, rfl⟩
    have horig := hcomp
    cases dr with
    | false =>
      have hstU : ((updApp st' d (fun a => { a with configured := false })).apps d).status ≠
          DockerStatus.stopped := by simpa [updApp] using hstatus
      rw [configureDeps] at hcomp
      simp only [] at hcomp
      rw [hrec] at hcomp
      simp only [] at hcomp
      rw [if_pos hcode] at hcomp
      simp only [Bool.false_eq_true, if_false] at hcomp
      rw [hsetc] at hcomp
      simp only [] at hcomp
      rw [handleBrokenDependent_no_deps hdeps hstU] at hcomp
      simp only [] at hcomp
      rw [hnil] at hcomp
      cases hcomp
      exact ⟨_, horig, mapLookup_mapInsert _ d _,
        fun _ => by simp [stopApp, updApp], fun h => absurd h (by simp)⟩
    | true =>
      rw [configureDeps] at hcomp
      simp only [] at hcomp
      rw [hrec] at hcomp
      simp only [] at hcomp
      rw [if_pos hcode] at hcomp
      simp only [eq_self_iff_true, if_true] at hcomp
      rw [handleBrokenDependent_no_deps hdeps hstatus] at hcomp
      simp only [] at hcomp
      rw [hnil] at hcomp
      cases hcomp
      exact ⟨_, horig, mapLookup_mapInsert _ d _,
        fun h => absurd h (by simp), fun _ => rfl⟩
  · obtain ⟨r2, st2, hcomp⟩ :
        ∃ r2 st2, configureDeps env (fuel + 1) name cfg t dr [d] st = (r2, st2) :=
      ⟨_, _, rfl⟩
    have horig := hcomp
    cases dr with
    | false =>
      rw [configureDeps] at hcomp
      simp only [] at hcomp
      rw [hrec] at hcomp
      simp only [] at hcomp
      rw [if_neg hcode] at hcomp
      rw [handleBrokenDependent_no_deps hdeps hstatus] at hcomp
      simp only [] at hcomp
      rw [hnil] at hcomp
      cases hcomp
      exact ⟨_, horig, mapLookup_mapInsert _ d _, by simp [stopApp, updApp]⟩
    | true =>
      rw [configureDeps] at hcomp
      simp only [] at hcomp
      rw [hrec] at hcomp
      simp only [] at hcomp
      rw [if_neg hcode] at hcomp
      rw [handleBrokenDependent_no_deps hdeps hstatus] at hcomp
      simp only [] at hcomp
      rw [hnil] at hcomp
      cases hcomp
      exact ⟨_, horig, mapLookup_mapInsert _ d _, rfl⟩

/-- A frame whose re-derived candidate (the previously persisted value, with
no explicitly supplied value) fails `Spec::matches` returns a
`CFG_SPEC_VIOLATION` error carrying the rendered match failure, with only the
entropy pop as a state change. -/
theorem configureRec_match_fail {env : Env} {fuel : Nat} {name : String}
    {t : Option Nat} {dr : Bool} {st : St} {w : Config} {m : String}
    (hinst : env.installed name = true)
    (hsaved : (st.apps name).savedConfig = some w)
    (hmatch : (env.spec name).matchesFn w = .error m) :
    configureRec env (fuel + 1) name none t dr st =
      (.error { code := CFG_SPEC_VIOLATION, message := m },
        { st with entropy := st.entropy.tail }) := by
  rw [configureRec]
  simp only []
  rw [hinst]
  simp only [Bool.true_eq_false, if_false]
  rw [hsaved]
  simp only [selectCandidate]
  rw [hmatch]

/-- A non-dry frame whose pipeline succeeds on the persisted value but whose
durable write fails returns that write error, after recording the value in
`res.changed`; no app record is touched because the write is the first
persistence step.  Stated for an app with no dependents, so the cascade
contributes nothing. -/
theorem configureRec_persist_fail {env : Env} {fuel : Nat} {name : String}
    {c0 : Option Config} {t : Option Nat} {st : St} {w w2 : Config} {err : Error}
    (hinst : env.installed name = true)
    (hsel : selectCandidate c0 (st.apps name).savedConfig (env.spec name)
      (st.entropy.headD 0) t = .ok w)
    (hmatch : (env.spec name).matchesFn w = .ok ())
    (hupd : (env.spec name).updateFn w = .ok w2)
    (hrules : checkRules (env.rules name) w2 [(name, w2)] = .ok ())
    (hsc : shortCircuitGuard (st.apps name).savedConfig w2 (st.apps name) = false)
    (hdeps : env.dependents name = [])
    (hwrite : env.writeConfigErr name w2 = some err) :
    configureRec env (fuel + 1) name c0 t false st =
      (.error err,
        { st with
          res := { st.res with changed := mapInsert st.res.changed name w2 }
          entropy := st.entropy.tail }) := by
  rw [configureRec]
  simp only []
  rw [hinst]
  simp only [Bool.true_eq_false, if_false]
  rw [hsel]
  simp only []
  rw [hmatch]
  simp only []
  rw [hupd]
  simp only []
  rw [hrules]
  simp only []
  rw [hsc]
  simp only [Bool.false_eq_true, if_false]
  rw [hdeps]
  rw [show ∀ (fl : Nat) (stX : St),
    configureDeps env fl name w2 t false [] stX = (.ok (), stX)
    from fun fl stX => by cases fl <;> rfl]
  simp only [Bool.false_eq_true, if_false]
  rw [persistStep]
  rw [hwrite]

/-- One dependent-loop step over a dependent whose re-derived value fails
validation, non-dry: the dependent's configured flag is cleared, containment
stops it and records a pointer-update-error reason, and the loop returns
successfully with exactly that containment as its effect. -/
theorem configureDeps_one_match_broken {env : Env} {fuel : Nat}
    {name d : String} {cfg : Config} {t : Option Nat} {st : St} {w : Config}
    {m : String}
    (hinst : env.installed d = true)
    (hsaved : (st.apps d).savedConfig = some w)
    (hmatch : (env.spec d).matchesFn w = .error m)
    (hsetc : env.setConfiguredErr d false = none)
    (hdeps : env.dependents d = [])
    (hstatus : (st.apps d).status ≠ DockerStatus.stopped) :
    configureDeps env (fuel + 1 + 1) name cfg t false [d] st =
      (.ok (), { stopApp d false
          (updApp { st with entropy := st.entropy.tail } d
            (fun a => { a with configured := false })) with
        res := { st.res with
          stopped := mapInsert st.res.stopped d
            ⟨name, DependencyError.pointerUpdateError m⟩ } }) := by
  rw [configureDeps]
  simp only []
  rw [configureRec_match_fail hinst hsaved hmatch]
  simp only []
  simp only [or_true, if_true]
  simp only [Bool.false_eq_true, if_false]
  rw [hsetc]
  simp only []
  rw [handleBrokenDependent_no_deps hdeps
    (show ((updApp { st with entropy := st.entropy.tail } d
        (fun a => { a with configured := false })).apps d).status ≠
      DockerStatus.stopped from by simpa [updApp] using hstatus)]
  simp only []
  rw [show ∀ (fl : Nat) (stX : St),
    configureDeps env fl name cfg t false [] stX = (.ok (), stX)
    from fun fl stX => by cases fl <;> rfl]
  rfl

/-- One dependent-loop step over a dependent whose pipeline succeeds but
whose durable write fails with a non-validation error, non-dry: the failure
aborts only the dependent's frame; the parent contains it with an "other"
reason, leaves its configured flag alone, stops it and records it.  The
dependent's value stays recorded in `changed` (inserted before its
persistence was attempted). -/
theorem configureDeps_one_persist_broken {env : Env} {fuel : Nat}
    {name d : String} {cfg : Config} {t : Option Nat} {st : St}
    {w w2 : Config} {err : Error}
    (hinst : env.installed d = true)
    (hsaved : (st.apps d).savedConfig = some w)
    (hmatch : (env.spec d).matchesFn w = .ok ())
    (hupd : (env.spec d).updateFn w = .ok w2)
    (hrules : checkRules (env.rules d) w2 [(d, w2)] = .ok ())
    (hsc : shortCircuitGuard (st.apps d).savedConfig w2 (st.apps d) = false)
    (hdeps : env.dependents d = [])
    (hwrite : env.writeConfigErr d w2 = some err)
    (hcode : ¬(err.code = CFG_RULES_VIOLATION ∨ err.code = CFG_SPEC_VIOLATION))
    (hstatus : (st.apps d).status ≠ DockerStatus.stopped) :
    configureDeps env (fuel + 1 + 1) name cfg t false [d] st =
      (.ok (), { stopApp d false
          { st with
            res := { st.res with changed := mapInsert st.res.changed d w2 }
            entropy := st.entropy.tail } with
        res := { st.res with
          changed := mapInsert st.res.changed d w2
          stopped := mapInsert st.res.stopped d
            ⟨name, DependencyError.other err.message⟩ } }) := by
  rw [configureDeps]
  simp only []
  rw [configureRec_persist_fail hinst
    (show selectCandidate none ((st.apps d).savedConfig) (env.spec d)
      (st.entropy.headD 0) t = .ok w from by rw [hsaved]; rfl)
    hmatch hupd hrules hsc hdeps hwrite]
  simp only []
  rw [if_neg hcode]
  rw [handleBrokenDependent_no_deps hdeps
    (show (({ st with
        res := { st.res with changed := mapInsert st.res.changed d w2 }
        entropy := st.entropy.tail } : St).apps d).status ≠
      DockerStatus.stopped from hstatus)]
  simp only []
  rw [show ∀ (fl : Nat) (stX : St),
    configureDeps env fl name cfg t false [] stX = (.ok (), stX)
    from fun fl stX => by cases fl <;> rfl]

/-- C1 (amended): if a top-level non-dry configure of A succeeds at A itself
but dependent D's re-derived value fails validation during the cascade, the
call returns Ok, `changed` contains A but not D, and — provided D's container
is not already stopped at containment time — `stopped` contains D with a
pointer-update-error reason carrying the rendered validation failure. -/
theorem claim1_amended_containment {env : Env} {fuel : Nat} {A D : String}
    {v vA w : Config} {t : Option Nat} {st : St} {m : String}
    (hAD : A ≠ D)
    (hinstA : env.installed A = true)
    (hinstD : env.installed D = true)
    (hdepA : env.dependents A = [D])
    (hdepD : env.dependents D = [])
    (hmatchA : (env.spec A).matchesFn v = .ok ())
    (hupdA : (env.spec A).updateFn v = .ok vA)
    (hrulesA : checkRules (env.rules A) vA [(A, vA)] = .ok ())
    (hscA : shortCircuitGuard (st.apps A).savedConfig vA (st.apps A) = false)
    (hsavedD : (st.apps D).savedConfig = some w)
    (hmatchD : (env.spec D).matchesFn w = .error m)
    (hsetcD : env.setConfiguredErr D false = none)
    (hstatusD : (st.apps D).status ≠ DockerStatus.stopped)
    (hwriteA : env.writeConfigErr A vA = none)
    (hcopyA : env.copyVolumeErr A = none)
    (hsetcA : env.setConfiguredErr A true = none)
    (hsetrA : env.setRecoverableErr A false = none)
    (hsetnA : env.setNeedsRestartErr A true = none) :
    ∃ r st', configure env (fuel + 1 + 1 + 1) A (some v) t false st = (.ok r, st') ∧
      mapLookup r.changed A = some vA ∧
      mapLookup r.changed D = none ∧
      mapLookup r.stopped D =
        some ⟨A, DependencyError.pointerUpdateError
          ({ code := CFG_SPEC_VIOLATION, message := m } : Error).message⟩ := by
  obtain ⟨r0, st0, hcomp⟩ :
      ∃ r0 st0, configure env (fuel + 1 + 1 + 1) A (some v) t false st = (r0, st0) :=
    ⟨_, _, rfl⟩
  have horig := hcomp
  rw [configure] at hcomp
  rw [configureRec] at hcomp
  simp only [] at hcomp
  rw [hinstA] at hcomp
  simp only [Bool.true_eq_false, if_false, selectCandidate] at hcomp
  rw [hmatchA] at hcomp
  simp only [] at hcomp
  rw [hupdA] at hcomp
  simp only [] at hcomp
  rw [hrulesA] at hcomp
  simp only [] at hcomp
  rw [show ({ st with res := ConfigurationRes.empty } : St).apps = st.apps
    from rfl] at hcomp
  rw [hscA] at hcomp
  simp only [Bool.false_eq_true, if_false] at hcomp
  rw [hdepA] at hcomp
  rw [show fuel + 2 = fuel + 1 + 1 from rfl] at hcomp
  rw [@configureDeps_one_match_broken env fuel A D vA t
    ({ res := { changed := mapInsert ConfigurationRes.empty.changed A vA,
                needs_restart := ConfigurationRes.empty.needs_restart,
                stopped := ConfigurationRes.empty.stopped },
       apps := st.apps, entropy := st.entropy.tail } : St) w m
    hinstD hsavedD hmatchD hsetcD hdepD hstatusD] at hcomp
  simp only [Bool.false_eq_true, if_false] at hcomp
  rw [persistStep] at hcomp
  rw [hwriteA] at hcomp
  simp only [] at hcomp
  rw [hcopyA] at hcomp
  simp only [] at hcomp
  rw [hsetcA] at hcomp
  simp only [] at hcomp
  rw [hsetrA] at hcomp
  simp only [] at hcomp
  split at hcomp
  · rename_i x dc stF heq
    split at heq
    · rw [hsetnA] at heq
      simp only [] at heq
      cases heq
      cases hcomp
      refine ⟨_, _, horig, ?_, ?_, ?_⟩
      · simp [updApp, mapInsert, mapLookup, ConfigurationRes.empty]
      · simp [updApp, mapInsert, mapLookup, ConfigurationRes.empty, hAD, Ne.symm hAD]
      · simp [updApp, stopApp, mapInsert, mapLookup, ConfigurationRes.empty]
    · cases heq
      cases hcomp
      refine ⟨_, _, horig, ?_, ?_, ?_⟩
      · simp [updApp, mapInsert, mapLookup, ConfigurationRes.empty]
      · simp [updApp, mapInsert, mapLookup, ConfigurationRes.empty, hAD, Ne.symm hAD]
      · simp [updApp, stopApp, mapInsert, mapLookup, ConfigurationRes.empty]
  · rename_i x e stF heq
    split at heq
    · rw [hsetnA] at heq
      simp only [] at heq
      simp at heq
    · simp at heq

/-- C1 counterexample: with dependent "d" already stopped, the premises of
the claim hold (the top-level configure of "a" succeeds at "a" itself and
"d"'s re-derived value fails validation), the call returns Ok and `changed`
contains "a" — but `stopped` does not contain "d" (only "d"'s own running
dependent "e", stopped with a not-running reason). -/
theorem claim1_counterexample :
    (configure (envTwo (failSpec "dspecerr") (fun _ _ => none) true) 6 "a"
      (some (Config.num 1)) none false (stTwo true DockerStatus.stopped)).1 =
      .ok { changed := [("a", Config.num 1)]
            needs_restart := ["a"]
            stopped := [("e", ⟨"d", DependencyError.notRunning⟩)] } ∧
    mapLookup [("e", (⟨"d", DependencyError.notRunning⟩ : TaggedDependencyError))]
      "d" = none :=
  ⟨rfl, rfl⟩

/-- Witness for the amended C1 at a concrete input: with "d" running, the
cascade contains it and records it with a pointer-update-error reason. -/
theorem claim1_witness :
    ∃ r st', configure (envSolo (failSpec "dspecerr")) (0 + 1 + 1 + 1) "a"
        (some (Config.num 1)) none false (stTwo true DockerStatus.running) =
        (.ok r, st') ∧
      mapLookup r.changed "a" = some (Config.num 1) ∧
      mapLookup r.changed "d" = none ∧
      mapLookup r.stopped "d" =
        some ⟨"a", DependencyError.pointerUpdateError
          ({ code := CFG_SPEC_VIOLATION, message := "dspecerr" } : Error).message⟩ :=
  @claim1_amended_containment (envSolo (failSpec "dspecerr")) 0 "a" "d"
    (Config.num 1) (Config.num 1) (Config.str "w") none
    (stTwo true DockerStatus.running) "dspecerr"
    (by decide) rfl rfl rfl rfl rfl rfl rfl rfl rfl rfl rfl (by decide)
    rfl rfl rfl rfl rfl

/-- Run of the scenario for the failure-dispatch claim: reconfiguring "d"
alone fails validation with a `CFG_SPEC_VIOLATION`-coded error. -/
def claim6Run : Except Error Config × St :=
  configureRec (envSolo (failSpec "dspecerr")) 4 "d" none none false
    (stTwo true DockerStatus.running)

/-- The error produced by that run. -/
def claim6Err : Error :=
  match claim6Run.1 with
  | .error e => e
  | .ok _ => fuelExhausted

/-- Witness for C6 at a concrete input: the concrete failed dependent run is
dispatched on its code; both branches of the dispatch are instantiated. -/
theorem claim6_witness :
    ((claim6Err.code = CFG_RULES_VIOLATION ∨ claim6Err.code = CFG_SPEC_VIOLATION) →
      ∃ st2, configureDeps (envSolo (failSpec "dspecerr")) (4 + 1) "a" (Config.num 1)
          none false ["d"] (stTwo true DockerStatus.running) = (.ok (), st2) ∧
        mapLookup st2.res.stopped "d" =
          some ⟨"a", DependencyError.pointerUpdateError claim6Err.message⟩ ∧
        (false = false → (st2.apps "d").configured = false) ∧
        (false = true → st2.apps "d" = claim6Run.2.apps "d")) ∧
    (¬(claim6Err.code = CFG_RULES_VIOLATION ∨ claim6Err.code = CFG_SPEC_VIOLATION) →
      ∃ st2, configureDeps (envSolo (failSpec "dspecerr")) (4 + 1) "a" (Config.num 1)
          none false ["d"] (stTwo true DockerStatus.running) = (.ok (), st2) ∧
        mapLookup st2.res.stopped "d" =
          some ⟨"a", DependencyError.other claim6Err.message⟩ ∧
        (st2.apps "d").configured = (claim6Run.2.apps "d").configured) :=
  @claim6_dependent_failure_dispatch (envSolo (failSpec "dspecerr")) 4 "a" "d"
    (Config.num 1) none false (stTwo true DockerStatus.running) claim6Run.2
    claim6Err rfl rfl (by decide) rfl

/-- C3 counterexample: "d"'s durable write fails with a filesystem error
(`code 2, "disk"`), yet the top-level call returns Ok: the failure aborted
only "d"'s frame and was contained by the parent as a broken-dependent
record with an "other" reason (and "d"'s dependent "e" was stopped with a
not-running reason), instead of propagating to the caller. -/
theorem claim3_counterexample :
    (configure
      (envTwo passSpec
        (fun n _ => if n == "d" then some ⟨FILESYSTEM_ERROR, "disk"⟩ else none) true)
      8 "a" (some (Config.num 1)) none false
      (stTwo false DockerStatus.running)).1 =
      .ok { changed := [("a", Config.num 1), ("d", Config.str "w"),
                        ("e", Config.num 9)]
            needs_restart := ["e", "a"]
            stopped := [("e", ⟨"d", DependencyError.notRunning⟩),
                        ("d", ⟨"a", DependencyError.other "disk"⟩)] } :=
  rfl

/-- A world whose only app "a" has no dependents and a failing durable
write. -/
def envRootFail : Env :=
  { envTwo passSpec
      (fun n _ => if n == "a" then some ⟨FILESYSTEM_ERROR, "disk"⟩ else none) true with
    dependents := fun _ => [] }

/-- A world where "a" has the single dependent "d" (itself with no
dependents) and "d"'s durable write fails. -/
def envDepFail : Env :=
  { envTwo passSpec
      (fun n _ => if n == "d" then some ⟨FILESYSTEM_ERROR, "disk"⟩ else none) true with
    dependents := fun n => if n == "a" then ["d"] else [] }

/-- C3 (amended): a persistence failure with a filesystem or registry error
propagates to the configure caller only from the root frame; a visited
dependent's persistence failure aborts that dependent's frame and is
contained by its parent as a broken-dependent record with an "other"
reason.  Three parts: (1) root propagation, with nothing recorded in
`stopped`; (2) dependent containment at the loop step, recording the
dependent with an "other" reason; (3) a concrete cascade in which the
dependent's filesystem write failure is contained and the overall call still
returns Ok. -/
theorem claim3_amended_persistence :
    (∀ (env : Env) (fuel : Nat) (A : String) (v vA : Config) (t : Option Nat)
      (st : St) (err : Error),
      env.installed A = true →
      (env.spec A).matchesFn v = .ok () →
      (env.spec A).updateFn v = .ok vA →
      checkRules (env.rules A) vA [(A, vA)] = .ok () →
      shortCircuitGuard (st.apps A).savedConfig vA (st.apps A) = false →
      env.dependents A = [] →
      env.writeConfigErr A vA = some err →
      (err.code = FILESYSTEM_ERROR ∨ err.code = REGISTRY_ERROR) →
      ∃ st', configure env (fuel + 1) A (some v) t false st = (.error err, st') ∧
        st'.res.stopped = []) ∧
    (∀ (env : Env) (fuel : Nat) (name d : String) (cfg : Config) (t : Option Nat)
      (st : St) (w w2 : Config) (err : Error),
      env.installed d = true →
      (st.apps d).savedConfig = some w →
      (env.spec d).matchesFn w = .ok () →
      (env.spec d).updateFn w = .ok w2 →
      checkRules (env.rules d) w2 [(d, w2)] = .ok () →
      shortCircuitGuard (st.apps d).savedConfig w2 (st.apps d) = false →
      env.dependents d = [] →
      env.writeConfigErr d w2 = some err →
      (err.code = FILESYSTEM_ERROR ∨ err.code = REGISTRY_ERROR) →
      (st.apps d).status ≠ DockerStatus.stopped →
      ∃ st2, configureDeps env (fuel + 1 + 1) name cfg t false [d] st =
        (.ok (), st2) ∧
        mapLookup st2.res.stopped d =
          some ⟨name, DependencyError.other err.message⟩) ∧
    (configure
      (envTwo passSpec
        (fun n _ => if n == "d" then some ⟨FILESYSTEM_ERROR, "disk"⟩ else none) true)
      8 "a" (some (Config.num 1)) none false
      (stTwo false DockerStatus.running)).1 =
      .ok { changed := [("a", Config.num 1), ("d", Config.str "w"),
                        ("e", Config.num 9)]
            needs_restart := ["e", "a"]
            stopped := [("e", ⟨"d", DependencyError.notRunning⟩),
                        ("d", ⟨"a", DependencyError.other "disk"⟩)] } := by
  refine ⟨?_, ?_, rfl⟩
  · intro env fuel A v vA t st err hinst hmatch hupd hrules hsc hdeps hwrite herr
    obtain ⟨r0, st0, hcomp⟩ :
        ∃ r0 st0, configure env (fuel + 1) A (some v) t false st = (r0, st0) :=
      ⟨_, _, rfl⟩
    have horig := hcomp
    rw [configure] at hcomp
    rw [@configureRec_persist_fail env fuel A (some v) t
      ({ st with res := ConfigurationRes.empty }) v vA err hinst rfl hmatch hupd
      hrules hsc hdeps hwrite] at hcomp
    simp only [] at hcomp
    cases hcomp
    exact ⟨_, horig, rfl⟩
  · intro env fuel name d cfg t st w w2 err hinst hsaved hmatch hupd hrules hsc
      hdeps hwrite herr hstatus
    have hcode : ¬(err.code = CFG_RULES_VIOLATION ∨ err.code = CFG_SPEC_VIOLATION) := by
      rcases herr with h | h <;>
        simp [h, FILESYSTEM_ERROR, REGISTRY_ERROR, CFG_RULES_VIOLATION,
          CFG_SPEC_VIOLATION]
    exact ⟨_, configureDeps_one_persist_broken hinst hsaved hmatch hupd hrules hsc
      hdeps hwrite hcode hstatus, mapLookup_mapInsert _ d _⟩

/-- Witness for the amended C3 at concrete inputs: a root write failure makes
the call fail with that error and an empty `stopped`; a dependent write
failure is contained at the loop step with an "other" record. -/
theorem claim3_witness :
    (∃ st', configure envRootFail (5 + 1) "a" (some (Config.num 1)) none false
        (stTwo false DockerStatus.running) =
        (.error ⟨FILESYSTEM_ERROR, "disk"⟩, st') ∧
      st'.res.stopped = []) ∧
    (∃ st2, configureDeps envDepFail (3 + 1 + 1) "a" (Config.num 1) none false
        ["d"] (stTwo false DockerStatus.running) = (.ok (), st2) ∧
      mapLookup st2.res.stopped "d" =
        some ⟨"a", DependencyError.other
          ((⟨FILESYSTEM_ERROR, "disk"⟩ : Error)).message⟩) :=
  ⟨claim3_amended_persistence.1 envRootFail 5 "a" (Config.num 1) (Config.num 1)
      none (stTwo false DockerStatus.running) ⟨FILESYSTEM_ERROR, "disk"⟩
      rfl rfl rfl rfl rfl rfl rfl (Or.inl rfl),
    claim3_amended_persistence.2.1 envDepFail 3 "a" "d" (Config.num 1) none
      (stTwo false DockerStatus.running) (Config.str "w") (Config.str "w")
      ⟨FILESYSTEM_ERROR, "disk"⟩ rfl rfl rfl rfl rfl rfl rfl rfl (Or.inl rfl)
      (by decide)⟩

end Appmgr
